import Mathlib

/-!
Shallow embedding of the WhatsApp message-tracking pipeline:
the session correlator (src/unnamed/part_000, class SessionCorrelator),
the LLM extraction client (src/unnamed/part_002, class GroqClient) and
the processing stage (src/src/kafka/processor.js, class MessageProcessor).

Modelling conventions:
- JavaScript strings are Lean String; lengths are counted in characters
  (the sources only ever meet ASCII payloads at the places the claims touch).
- A JS Map is an insertion-ordered association list; a JS Set is an
  insertion-ordered duplicate-free list.
- Date.now() is an explicit natural-number parameter called now.
- setTimeout handles are modelled by the armed duration: the timers map
  sends a sender id to the duration of its single outstanding timer.
- The remote LLM is an oracle: a list of per-attempt outcomes.
-/

/-- JS character class \w, i.e. [A-Za-z0-9_] (ASCII, the regex default). -/
def isWordChar (c : Char) : Bool :=
  (('A' ≤ c && c ≤ 'Z') || ('a' ≤ c && c ≤ 'z') || c.isDigit || c = '_')

/-- JS String.prototype.trim on an explicit character list:
drop whitespace at both ends. -/
def trimChars (t : List Char) : List Char :=
  ((t.dropWhile Char.isWhitespace).reverse.dropWhile Char.isWhitespace).reverse

/-- The pattern word pat occurs in txt starting at index i with a regex
word boundary on each side; models one alternative of a /\b(...)\b/ test.
All alternatives in the source start and end with word characters, so the
boundary condition is: the neighbouring character, when any, is not \w. -/
def wordBoundedAt (pat txt : List Char) (i : Nat) : Bool :=
  List.isPrefixOf pat (txt.drop i)
  && (decide (i = 0) || !isWordChar (txt.getD (i - 1) ' '))
  && (decide (txt.length ≤ i + pat.length) || !isWordChar (txt.getD (i + pat.length) ' '))

/-- regex.test for a /\b(w1|w2|...)\b/ alternation applied to txt. -/
def testWordPattern (words : List String) (txt : List Char) : Bool :=
  words.any (fun w => (List.range (txt.length + 1)).any (wordBoundedAt w.toList txt))

/-- The alternatives of the four noisePatterns regexes of SessionCorrelator,
in source order.  The patterns all carry the /i flag and are only ever
tested against an already lowercased string, so the lowercase words are
the whole story. -/
def noiseWords : List String :=
  ["hi", "hello", "hey", "gm", "morning", "hey", "thx", "thanks",
   "namaste", "pranam", "shubh prabhat", "kaise ho",
   "jay mataji", "ram ram", "sakti", "om",
   "suno", "bhai", "ji", "ok", "okay", "tike"]

/-- SessionCorrelator.isNoise.  The JS guard (!text || text.length < 2)
collapses to a length test once text is a genuine string, since the empty
string has length 0. -/
def isNoise (text : String) : Bool :=
  if text.length < 2 then true
  else
    let cleanText := (trimChars text.toList).map Char.toLower
    if cleanText.length < 15 then testWordPattern noiseWords cleanText
    else false

/-- The body of /(\+91|0)?[6-9]\d{9}/ matches txt at index i: a digit in
6..9 followed by nine digits.  The optional (\+91|0) front part never changes
whether a match exists somewhere in the string. -/
def mobileShapeAt (txt : List Char) (i : Nat) : Bool :=
  match txt.drop i with
  | c :: rest =>
      ('6' ≤ c && c ≤ '9') && ((rest.take 9).length = 9 && (rest.take 9).all Char.isDigit)
  | [] => false

/-- mobilePattern.test(text) for /(\+91|0)?[6-9]\d{9}/ (unanchored). -/
def hasMobileShape (text : String) : Bool :=
  let t := text.toList
  (List.range t.length).any (mobileShapeAt t)

/-- Consume one [A-Z][a-z]+ word from the front; return the rest on success. -/
def matchCapWord : List Char → Option (List Char)
  | c :: rest =>
      if c.isUpper && !(rest.takeWhile Char.isLower).isEmpty then
        some (rest.dropWhile Char.isLower)
      else none
  | [] => none

/-- Anchored match of /^[A-Z][a-z]+(\s[A-Z][a-z]+){1,2}$/: two or three
capitalized words separated by single whitespace characters.  The
character classes [a-z], \s and $ are pairwise disjoint, so the greedy
match is deterministic and needs no backtracking. -/
def nameShape (t : List Char) : Bool :=
  match matchCapWord t with
  | none => false
  | some r1 =>
    match r1 with
    | [] => false
    | s1 :: r2 =>
      s1.isWhitespace &&
        match matchCapWord r2 with
        | none => false
        | some r3 =>
          match r3 with
          | [] => true
          | s2 :: r4 =>
            s2.isWhitespace &&
              match matchCapWord r4 with
              | some [] => true
              | _ => false

/-- The alternatives of the addressKeywords regex, lowercased (the regex
carries /i and is compared here against a lowercased copy of the text). -/
def addressWords : List String :=
  ["road", "st", "street", "apt", "apartment", "flat", "city", "dist",
   "nagar", "society", "colony", "landmark", "near", "opposite"]

/-- Number of fields of JS text.split(/\s+/): one more than the number of
maximal whitespace runs.  The boolean argument records whether the
previous character was whitespace. -/
def wsRunsAux : List Char → Bool → Nat
  | [], _ => 0
  | c :: rest, inRun =>
      if c.isWhitespace then (if inRun then 0 else 1) + wsRunsAux rest true
      else wsRunsAux rest false

/-- text.split(/\s+/).length. -/
def splitFieldCount (text : String) : Nat :=
  wsRunsAux text.toList false + 1

/-- The slot labels of SessionCorrelator.identifySlot. -/
inductive Slot where
  | name
  | mobile
  | address
  | unknown
deriving DecidableEq, Repr

/-- SessionCorrelator.identifySlot: fixed priority order mobile, name,
address, unknown. -/
def identifySlot (text : String) : Slot :=
  if hasMobileShape text then Slot.mobile
  else if nameShape (trimChars text.toList) then Slot.name
  else if testWordPattern addressWords (text.toList.map Char.toLower)
          || splitFieldCount text > 5 then Slot.address
  else Slot.unknown

/-! ## Correlator data model -/

/-- An inbound message as handed to SessionCorrelator.addMessage. -/
structure Message where
  id : String
  senderId : String
  senderNumber : String
  pushName : String
  text : String
  timestamp : Nat
deriving DecidableEq, Repr

/-- A message as buffered inside a session (the object pushed onto
session.messages in addMessage). -/
structure BufferedMessage where
  id : String
  text : String
  timestamp : Nat
  receivedAt : Nat
deriving DecidableEq, Repr

/-- The slots record of a session; null is none. -/
structure Slots where
  name : Option String
  mobile : Option String
  address : Option String
deriving DecidableEq, Repr

/-- An active session as stored in this.sessions. -/
structure Session where
  senderId : String
  senderNumber : String
  pushName : String
  messages : List BufferedMessage
  slots : Slots
  startedAt : Nat
  lastMessageAt : Nat
deriving DecidableEq, Repr

/-- The Finalized Session Record built and emitted by
SessionCorrelator.processSession. -/
structure SessionData where
  sessionId : String
  senderId : String
  senderNumber : String
  pushName : String
  messageCount : Nat
  combinedText : String
  messages : List BufferedMessage
  slots : Slots
  startedAt : Nat
  completedAt : Nat
  durationMs : Nat
deriving DecidableEq, Repr

/-- The mutable fields of the SessionCorrelator singleton.  timeoutMs and
maxMessages are the configuration constants fixed in the constructor. -/
structure CorrState where
  sessions : List (String × Session)
  timers : List (String × Nat)
  processedSessions : List String
  processedMessageIds : List String
  timeoutMs : Nat
  maxMessages : Nat
deriving DecidableEq, Repr

/-! Association-list operations with JS Map / Set semantics: lookups find
the first (and in a duplicate-free list, only) binding; Map.set updates an
existing key in place and appends a new one; Set.add appends when absent. -/

/-- Map.get: the first (in a Map the only) binding of the key. -/
def alGet {α : Type} : List (String × α) → String → Option α
  | [], _ => none
  | p :: rest, k => if p.1 == k then some p.2 else alGet rest k

/-- Map.set: update an existing binding in place, append a new one. -/
def alSet {α : Type} : List (String × α) → String → α → List (String × α)
  | [], k, v => [(k, v)]
  | p :: rest, k, v =>
      if p.1 == k then (k, v) :: rest else p :: alSet rest k v

/-- Map.delete (also used for clearTimeout plus Map.delete on timers). -/
def alDelete {α : Type} : List (String × α) → String → List (String × α)
  | [], _ => []
  | p :: rest, k =>
      if p.1 == k then alDelete rest k else p :: alDelete rest k

/-- JS truthiness of a nullable string: null and the empty string are falsy. -/
def truthy : Option String → Bool
  | none => false
  | some v => v != ""

/-- session.slots[slot].  The unknown index reads undefined in JS, modelled
as none (all uses are guarded by slot not being unknown). -/
def slotGet (sl : Slots) : Slot → Option String
  | Slot.name => sl.name
  | Slot.mobile => sl.mobile
  | Slot.address => sl.address
  | Slot.unknown => none

/-- session.slots[slot] = text (only reached with slot not unknown). -/
def slotSet (sl : Slots) (slot : Slot) (v : String) : Slots :=
  match slot with
  | Slot.name => { sl with name := some v }
  | Slot.mobile => { sl with mobile := some v }
  | Slot.address => { sl with address := some v }
  | Slot.unknown => sl

/-- Bounded eviction of the seen-message cache: over 10000 entries, the
oldest 5000 (insertion order) are deleted in bulk. -/
def pruneIds (l : List String) : List String :=
  if l.length > 10000 then l.drop 5000 else l

/-- Bounded eviction of the finalized-session cache: over 1000 entries,
the oldest 500 are deleted in bulk. -/
def prunePS (l : List String) : List String :=
  if l.length > 1000 then l.drop 500 else l

/-- The public session identifier, senderId_startedAt. -/
def sessionIdOf (senderId : String) (startedAt : Nat) : String :=
  senderId ++ "_" ++ toString startedAt

/-- Array.prototype.join("\n") over the message texts. -/
def joinNl : List String → String
  | [] => ""
  | [t] => t
  | t :: rest => t ++ "\n" ++ joinNl rest

/-- The sessionData object built by processSession just before emitting. -/
def mkSessionData (senderId : String) (sess : Session) (now : Nat) : SessionData :=
  { sessionId := sessionIdOf senderId sess.startedAt
    senderId := sess.senderId
    senderNumber := sess.senderNumber
    pushName := sess.pushName
    messageCount := sess.messages.length
    combinedText := joinNl (sess.messages.map (fun bm => bm.text))
    messages := sess.messages
    slots := sess.slots
    startedAt := sess.startedAt
    completedAt := now
    durationMs := now - sess.startedAt }

/-- SessionCorrelator.processSession: finalize the sender's session.
Returns the new state and the list of emitted Finalized Session Records
(empty or a singleton).  Note that on the defensive duplicate branch the
session is deleted but the timer is left alone, exactly as in the source. -/
def processSession (s : CorrState) (senderId : String) (now : Nat) :
    CorrState × List SessionData :=
  match alGet s.sessions senderId with
  | none => (s, [])
  | some sess =>
    if sess.messages.isEmpty then (s, [])
    else if s.processedSessions.contains (sessionIdOf senderId sess.startedAt) then
      ({ s with sessions := alDelete s.sessions senderId }, [])
    else
      ({ s with
          processedSessions :=
            prunePS (s.processedSessions ++ [sessionIdOf senderId sess.startedAt])
          timers := alDelete s.timers senderId
          sessions := alDelete s.sessions senderId },
       [mkSessionData senderId sess now])

/-- The adaptive timeout computation of addMessage: session.slots.name and
session.slots.mobile are read with JS truthiness, while filledSlots counts
the values that are not null. -/
def adaptiveTimeoutMs (slots : Slots) (defaultMs : Nat) : Nat :=
  let filledSlots :=
    List.countP (fun v => Option.isSome v) [slots.name, slots.mobile, slots.address]
  if truthy slots.name && truthy slots.mobile then 10000
  else if filledSlots ≥ 1 then 30000
  else defaultMs

/-- The fresh session object created by addMessage for a sender with no
(surviving) session. -/
def freshSession (m : Message) (now : Nat) : Session :=
  { senderId := m.senderId
    senderNumber := m.senderNumber
    pushName := m.pushName
    messages := []
    slots := { name := none, mobile := none, address := none }
    startedAt := now
    lastMessageAt := now }

/-- The body of SessionCorrelator.addMessage after the duplicate check has
passed and the message id has been recorded: noise filter, slot
classification, slot-collision finalize, session creation/update, adaptive
timer re-arm, and the message-count finalize trigger. -/
def addMessageBody (s : CorrState) (m : Message) (now : Nat) :
    CorrState × List SessionData :=
  if isNoise m.text then (s, [])
  else
    let slot := identifySlot m.text
    let existing := alGet s.sessions m.senderId
    let collide :=
      match existing with
      | some sess => slot ≠ Slot.unknown && truthy (slotGet sess.slots slot)
      | none => false
    let step1 := if collide then processSession s m.senderId now else (s, [])
    let s1 := step1.1
    let sessOpt := if collide then none else existing
    let created :=
      match sessOpt with
      | some sess => (s1, sess)
      | none =>
        ({ s1 with sessions := alSet s1.sessions m.senderId (freshSession m now) },
         freshSession m now)
    let s2 := created.1
    let sess := created.2
    let slots1 := if slot = Slot.unknown then sess.slots else slotSet sess.slots slot m.text
    let sess1 : Session :=
      { sess with
          slots := slots1
          messages := sess.messages ++
            [{ id := m.id, text := m.text, timestamp := m.timestamp, receivedAt := now }]
          lastMessageAt := now }
    let s3 := { s2 with sessions := alSet s2.sessions m.senderId sess1 }
    let s4 := { s3 with
      timers := alSet s3.timers m.senderId (adaptiveTimeoutMs sess1.slots s.timeoutMs) }
    if sess1.messages.length ≥ s4.maxMessages then
      let step2 := processSession s4 m.senderId now
      (step2.1, step1.2 ++ step2.2)
    else (s4, step1.2)

/-- SessionCorrelator.addMessage: duplicate check and seen-cache recording
(with bounded eviction), then the body above. -/
def addMessage (s : CorrState) (m : Message) (now : Nat) :
    CorrState × List SessionData :=
  if s.processedMessageIds.contains m.id then (s, [])
  else
    addMessageBody
      { s with processedMessageIds := pruneIds (s.processedMessageIds ++ [m.id]) }
      m now

/-- The finalize loop of SessionCorrelator.flushAll over a snapshot of
sender ids. -/
def flushAllGo (s : CorrState) (keys : List String) (now : Nat) :
    CorrState × List SessionData :=
  match keys with
  | [] => (s, [])
  | k :: rest =>
    let step := processSession s k now
    let next := flushAllGo step.1 rest now
    (next.1, step.2 ++ next.2)

/-- SessionCorrelator.flushAll: finalize every currently active session. -/
def flushAll (s : CorrState) (now : Nat) : CorrState × List SessionData :=
  flushAllGo s (s.sessions.map (fun p => p.1)) now

/-! ## Extraction client (GroqClient) and processing stage (MessageProcessor)

Wall-clock bookkeeping fields of the result objects (processedAt, llmModel,
llmResponseTime) are not modelled; every field the claims mention is. -/

/-- The JSON object parsed from a successful LLM response.  A missing
field is none; confidence is a JSON number, embedded as a rational. -/
structure ExtractedJson where
  name : Option String
  address : Option String
  mobile : Option String
  confidence : Option ℚ
  notes : Option String
deriving DecidableEq, Repr

/-- The outcome of one remote extraction attempt: a parsed JSON payload,
or a thrown error carrying its message (covers request failures, empty
responses and JSON parse errors alike). -/
inductive LlmAttempt where
  | success (data : ExtractedJson)
  | failure (errMsg : String)
deriving DecidableEq, Repr

/-- The extracted block of a processing result. -/
structure Extracted where
  name : Option String
  address : Option String
  mobile : Option String
  confidence : ℚ
  notes : Option String
deriving DecidableEq, Repr

/-- The result object built by GroqClient.extractContactInfo and enriched
by MessageProcessor.process.  status and error are absent (none) on the
success path of the client; process then fills status in. -/
structure ParsedData where
  sessionId : String
  senderNumber : String
  pushName : String
  extracted : Extracted
  rawMessages : List BufferedMessage
  combinedText : String
  error : Option String
  status : Option String
deriving DecidableEq, Repr

/-- JS (x || null) on a nullable string: the empty string collapses to null. -/
def jsOrNull : Option String → Option String
  | none => none
  | some v => if v = "" then none else some v

/-- JS (extractedData.confidence || 0.5): a missing or zero confidence is
replaced with the default 0.5. -/
def jsOrHalf : Option ℚ → ℚ
  | none => (1 : ℚ) / 2
  | some x => if x = 0 then (1 : ℚ) / 2 else x

/-- GroqClient.normalizePhoneNumber.  The input is nullable; JS !phone is
true for null and for the empty string.  The replace step keeps digits and
every plus sign; only a leading plus is then dropped, and the length gate
is applied to the kept characters (pluses included). -/
def normalizePhoneNumber (phone : Option String) : Option String :=
  match phone with
  | none => none
  | some p =>
    if p = "" then none
    else
      let kept := p.toList.filter (fun c => c.isDigit || c = '+')
      let normalized := match kept with
        | '+' :: rest => rest
        | l => l
      if normalized.length < 10 || 15 < normalized.length then some p
      else some (String.mk normalized)

/-- The success-path result of GroqClient.extractContactInfo for a given
session and parsed LLM payload. -/
def successResult (session : SessionData) (data : ExtractedJson) : ParsedData :=
  { sessionId := session.sessionId
    senderNumber := session.senderNumber
    pushName := session.pushName
    extracted :=
      { name := jsOrNull data.name
        address := jsOrNull data.address
        mobile := normalizePhoneNumber data.mobile
        confidence := jsOrHalf data.confidence
        notes := jsOrNull data.notes }
    rawMessages := session.messages
    combinedText := session.combinedText
    error := none
    status := none }

/-- The fallback record GroqClient.extractContactInfo returns (it does not
throw) once every retry has failed, with lastError carrying the message of
the final failure. -/
def failedResult (session : SessionData) (lastError : String) : ParsedData :=
  { sessionId := session.sessionId
    senderNumber := session.senderNumber
    pushName := session.pushName
    extracted :=
      { name := none
        address := none
        mobile := none
        confidence := 0
        notes := some ("Extraction failed: " ++ lastError) }
    rawMessages := session.messages
    combinedText := session.combinedText
    error := some lastError
    status := some "failed" }

/-- The retry loop of GroqClient.extractContactInfo over the oracle of
attempt outcomes: return on the first success, remember the last error
otherwise.  lastError is none only before the first attempt; the loop is
always entered with at least one attempt in the real client. -/
def extractLoop (session : SessionData) (attempts : List LlmAttempt)
    (lastError : Option String) : ParsedData :=
  match attempts with
  | [] => failedResult session (lastError.getD "")
  | LlmAttempt.success data :: _ => successResult session data
  | LlmAttempt.failure e :: rest => extractLoop session rest (some e)

/-- GroqClient.extractContactInfo with maxRetries = 3: at most the first
three oracle outcomes are consulted. -/
def extractContactInfo (session : SessionData) (attempts : List LlmAttempt) : ParsedData :=
  extractLoop session (attempts.take 3) none

/-- The status classification of MessageProcessor.process: parsedData.error
is read with JS truthiness, and the low-confidence gate is a strict
comparison against 0.3. -/
def classifyStatus (parsed : ParsedData) : String :=
  if truthy parsed.error then "failed"
  else if parsed.extracted.confidence < (3 : ℚ) / 10 then "low_confidence"
  else "processed"

/-- The processing result as persisted and forwarded by
MessageProcessor.process: the extraction result with status filled in. -/
def processResult (session : SessionData) (attempts : List LlmAttempt) : ParsedData :=
  let parsed := extractContactInfo session attempts
  { parsed with status := some (classifyStatus parsed) }

/-- The observable effects of one MessageProcessor.process call: database
saves, messages to the parsed-messages topic, dead-letter entries (the
original session plus the error message), and the value returned to the
queue consumption loop (or the propagated error).  extractContactInfo
returns its failure record instead of throwing, and the store and topic
sinks are modelled as non-throwing, so the catch block of process is
unreachable here and every call follows the try path. -/
structure ProcessOutcome where
  saved : List ParsedData
  parsedTopic : List ParsedData
  deadLetter : List (SessionData × String)
  result : Except String ParsedData
deriving Repr

/-- MessageProcessor.process. -/
def process (session : SessionData) (attempts : List LlmAttempt) : ProcessOutcome :=
  let r := processResult session attempts
  { saved := [r]
    parsedTopic := [r]
    deadLetter := []
    result := Except.ok r }

/-- Whether a result value was returned (rather than an error propagated). -/
def isOkResult : Except String ParsedData → Bool
  | Except.ok _ => true
  | Except.error _ => false

/-! ## Spec-side definitions and concrete inputs used by the claims -/

/-- From the amended wording of the phone-normalization claim: keep the
digits and every plus sign of the input. -/
def keepDigitsPlus : List Char → List Char
  | [] => []
  | c :: cs =>
      if c.isDigit ∨ c = '+' then c :: keepDigitsPlus cs else keepDigitsPlus cs

/-- From the amended wording of the phone-normalization claim: null and
empty input yield null; otherwise keep digits and every plus sign, drop
one leading plus, and when the kept characters (pluses included) number
between 10 and 15 return them, else return the original input unchanged. -/
def amendedNormalizePhone (phone : Option String) : Option String :=
  match phone with
  | none => none
  | some p =>
    if p = "" then none
    else
      let dropped :=
        match keepDigitsPlus p.toList with
        | '+' :: rest => rest
        | l => l
      if 10 ≤ dropped.length ∧ dropped.length ≤ 15 then some (String.mk dropped)
      else some p

/-- The finalized session of the spec's worked failure example:
combinedText is the name line followed by the mobile line. -/
def demoSession : SessionData :=
  { sessionId := "919812345678@s.whatsapp.net_1700000000000"
    senderId := "919812345678@s.whatsapp.net"
    senderNumber := "919812345678"
    pushName := "Rahul"
    messageCount := 2
    combinedText := "Rahul Sharma\n9876543210"
    messages :=
      [{ id := "m1", text := "Rahul Sharma", timestamp := 1700000000000,
         receivedAt := 1700000000000 },
       { id := "m2", text := "9876543210", timestamp := 1700000000500,
         receivedAt := 1700000000500 }]
    slots := { name := some "Rahul Sharma", mobile := some "9876543210", address := none }
    startedAt := 1700000000000
    completedAt := 1700000005000
    durationMs := 5000 }

/-- Three failing attempts: the oracle for an extraction whose every retry
is exhausted. -/
def demoFailAttempts : List LlmAttempt :=
  [LlmAttempt.failure "Request timed out",
   LlmAttempt.failure "Request timed out",
   LlmAttempt.failure "Request timed out"]

/-- A successful LLM payload with confidence 0.25. -/
def demoLowConfJson : ExtractedJson :=
  { name := some "Rahul Sharma", address := none, mobile := some "9876543210",
    confidence := some ((1 : ℚ) / 4), notes := none }

/-- A successful LLM payload with confidence exactly 0.3. -/
def demoBoundaryJson : ExtractedJson :=
  { name := some "Rahul Sharma", address := none, mobile := some "9876543210",
    confidence := some ((3 : ℚ) / 10), notes := none }

/-- A successful LLM payload whose confidence field is 0. -/
def demoZeroConfJson : ExtractedJson :=
  { name := some "Rahul Sharma", address := none, mobile := some "9876543210",
    confidence := some 0, notes := none }

/-- Every stored slot value is JS-truthy, i.e. never the empty string.
addMessage only ever stores a message text that survived the noise filter
(hence has at least two characters), so this invariant holds of every
reachable session; claims reading "filled" as non-null rely on it. -/
def slotsTruthy (sl : Slots) : Prop :=
  sl.name ≠ some "" ∧ sl.mobile ≠ some "" ∧ sl.address ≠ some ""

/-- An active session holding one mobile-bearing message. -/
def demoMobileSession : Session :=
  { senderId := "919812345678@s.whatsapp.net"
    senderNumber := "919812345678"
    pushName := "Rahul"
    messages :=
      [{ id := "wamid-2", text := "9876543210", timestamp := 1700000000500,
         receivedAt := 1700000000500 }]
    slots := { name := none, mobile := some "9876543210", address := none }
    startedAt := 1700000000500
    lastMessageAt := 1700000000500 }

/-- The state a slot-collision scenario starts from: one active session
of the mobile-only shape for the demo sender. -/
def demoStateWithMobile : CorrState :=
  { sessions := [("919812345678@s.whatsapp.net", demoMobileSession)]
    timers := [("919812345678@s.whatsapp.net", 30000)]
    processedSessions := []
    processedMessageIds := ["wamid-2"]
    timeoutMs := 120000
    maxMessages := 10 }

/-- An active session for a second sender, holding one name message. -/
def demoNameSession : Session :=
  { senderId := "918888877777@s.whatsapp.net"
    senderNumber := "918888877777"
    pushName := "Priya"
    messages :=
      [{ id := "wamid-9", text := "Priya Patel", timestamp := 1700000003000,
         receivedAt := 1700000003000 }]
    slots := { name := some "Priya Patel", mobile := none, address := none }
    startedAt := 1700000003000
    lastMessageAt := 1700000003000 }

/-- A state with two active sessions, for the shutdown-flush scenario. -/
def demoTwoSessionState : CorrState :=
  { sessions :=
      [("919812345678@s.whatsapp.net", demoMobileSession),
       ("918888877777@s.whatsapp.net", demoNameSession)]
    timers :=
      [("919812345678@s.whatsapp.net", 30000),
       ("918888877777@s.whatsapp.net", 30000)]
    processedSessions := []
    processedMessageIds := ["wamid-2", "wamid-9"]
    timeoutMs := 120000
    maxMessages := 10 }

/-- The correlator state right after construction under the default
configuration: 120 s timeout, 10-message cap, everything empty. -/
def initialState : CorrState :=
  { sessions := [], timers := [], processedSessions := [],
    processedMessageIds := [], timeoutMs := 120000, maxMessages := 10 }

/-- A name-bearing inbound message. -/
def demoNameMsg : Message :=
  { id := "wamid-1", senderId := "919812345678@s.whatsapp.net",
    senderNumber := "919812345678", pushName := "Rahul",
    text := "Rahul Sharma", timestamp := 1700000000000 }

/-- A different message reusing the id of demoNameMsg. -/
def demoReplayMsg : Message :=
  { demoNameMsg with text := "Flat 12, MG Road, Pune" }

/-- A pure greeting message. -/
def demoNoiseMsg : Message :=
  { id := "wamid-0", senderId := "919812345678@s.whatsapp.net",
    senderNumber := "919812345678", pushName := "Rahul",
    text := "namaste ji", timestamp := 1699999999000 }

/-- A non-noise message reusing the id of the greeting. -/
def demoNoiseReplayMsg : Message :=
  { demoNoiseMsg with text := "Rahul Sharma" }

/-- A mobile-number message from the same sender. -/
def demoMobileMsg : Message :=
  { id := "wamid-2", senderId := "919812345678@s.whatsapp.net",
    senderNumber := "919812345678", pushName := "Rahul",
    text := "9876543210", timestamp := 1700000000500 }

/-- A second mobile-shaped message from the same sender (the aggregator
scenario: a new person's number arrives while mobile is already filled). -/
def demoSecondMobileMsg : Message :=
  { id := "wamid-3", senderId := "919812345678@s.whatsapp.net",
    senderNumber := "919812345678", pushName := "Rahul",
    text := "9123456789", timestamp := 1700000001000 }

/-- The noise predicate exactly as the claim words it: true when the text
is shorter than 2 characters, or when the text is shorter than 15
characters and matches one of the (case-insensitive) noise patterns. -/
def claimIsNoise (text : String) : Bool :=
  decide (text.length < 2)
  || (decide (text.length < 15)
      && testWordPattern noiseWords (text.toList.map Char.toLower))

/-- From the amended wording of the noise claim: true when the text is
shorter than 2 characters, or when the trimmed lowercased text is shorter
than 15 characters and matches one of the noise patterns. -/
def amendedIsNoise (text : String) : Bool :=
  decide (text.length < 2)
  || (decide (((trimChars text.toList).map Char.toLower).length < 15)
      && testWordPattern noiseWords ((trimChars text.toList).map Char.toLower))

/-! ## Theorems -/

theorem keepDigitsPlus_eq_filter (l : List Char) :
    keepDigitsPlus l = l.filter (fun c => c.isDigit || c = '+') := by
  induction l with
  | nil => rfl
  | cons c cs ih =>
    by_cases hd : c.isDigit <;> by_cases hp : c = '+' <;>
      simp [keepDigitsPlus, List.filter_cons, hd, hp, ih]

theorem lengthGate (p : String) (d : List Char) :
    (if d.length < 10 || 15 < d.length then some p else some (String.mk d)) =
      (if 10 ≤ d.length ∧ d.length ≤ 15 then some (String.mk d) else some p) := by
  by_cases h : 10 ≤ d.length ∧ d.length ≤ 15
  · rw [if_pos h, if_neg] ; simp ; omega
  · rw [if_neg h, if_pos] ; simp ; omega

/-- C4 (counterexample): the claim predicts that a plus sign in the
interior of the number is stripped, so that "12345+67890" would
normalize to the ten digits "1234567890"; the code keeps every plus
sign and, with 11 kept characters inside the 10..15 gate, returns the
string with the plus still in it.  The claim also quantifies over every
non-null string, but the empty string is routed to null rather than
returned unchanged. -/
theorem normalizePhone_keeps_interior_plus :
    normalizePhoneNumber (some "12345+67890") = some "12345+67890"
    ∧ normalizePhoneNumber (some "12345+67890") ≠ some "1234567890"
    ∧ normalizePhoneNumber (some "") = none := by
  refine ⟨by decide, by decide, rfl⟩

/-- C4 (amended): null and empty input yield null; otherwise the digits
and every plus sign are kept, one leading plus is dropped, and the kept
characters are returned when they number between 10 and 15 (pluses
included in the count), the original string being returned unchanged
otherwise.  In particular "+91 98765 43210" normalizes to
"919876543210" and "12345" is returned unchanged. -/
theorem normalizePhone_spec :
    (∀ phone, normalizePhoneNumber phone = amendedNormalizePhone phone)
    ∧ normalizePhoneNumber (some "+91 98765 43210") = some "919876543210"
    ∧ normalizePhoneNumber (some "12345") = some "12345" := by
  refine ⟨fun phone => ?_, by decide, by decide⟩
  cases phone with
  | none => rfl
  | some p =>
    by_cases hp : p = ""
    · simp [normalizePhoneNumber, amendedNormalizePhone, hp]
    · simp only [normalizePhoneNumber, amendedNormalizePhone,
        keepDigitsPlus_eq_filter, hp, if_neg, if_false]
      exact lengthGate p _

theorem extract_allFailed (session : SessionData) (e1 e2 e3 : String) :
    extractContactInfo session
        [LlmAttempt.failure e1, LlmAttempt.failure e2, LlmAttempt.failure e3]
      = failedResult session e3 := rfl

theorem extract_firstSuccess (session : SessionData) (d : ExtractedJson)
    (rest : List LlmAttempt) :
    extractContactInfo session (LlmAttempt.success d :: rest)
      = successResult session d := by
  simp [extractContactInfo, extractLoop, List.take_cons]

/-- C7: a processed extraction result is classified failed when the
extraction call failed on all three attempts (the terminal error carrying,
as every real one does, a non-empty message), low_confidence when its
confidence is below 0.3, and processed otherwise, the 0.3 boundary
falling on the processed side. -/
theorem processResult_status_classification :
    (∀ (session : SessionData) (e1 e2 e3 : String), e3 ≠ "" →
      (processResult session
          [LlmAttempt.failure e1, LlmAttempt.failure e2, LlmAttempt.failure e3]).status
        = some "failed")
    ∧ (∀ (session : SessionData) (d : ExtractedJson) (rest : List LlmAttempt),
        jsOrHalf d.confidence < (3 : ℚ) / 10 →
        (processResult session (LlmAttempt.success d :: rest)).status
          = some "low_confidence")
    ∧ (∀ (session : SessionData) (d : ExtractedJson) (rest : List LlmAttempt),
        (3 : ℚ) / 10 ≤ jsOrHalf d.confidence →
        (processResult session (LlmAttempt.success d :: rest)).status
          = some "processed") := by
  refine ⟨fun session e1 e2 e3 h3 => ?_, fun session d rest hlt => ?_,
    fun session d rest hge => ?_⟩
  · simp [processResult, extract_allFailed, classifyStatus, failedResult, truthy, h3]
  · simp [processResult, extract_firstSuccess, classifyStatus, successResult, truthy, hlt]
  · simp [processResult, extract_firstSuccess, classifyStatus, successResult, truthy,
      not_lt.mpr hge]

/-- C7 witness: at the spec's own data points — three timeouts give
failed, confidence 0.25 gives low_confidence, confidence exactly 0.3
gives processed. -/
theorem processResult_status_classification_witness :
    (("Request timed out" : String) ≠ ""
      ∧ (processResult demoSession demoFailAttempts).status = some "failed")
    ∧ (jsOrHalf demoLowConfJson.confidence < (3 : ℚ) / 10
      ∧ (processResult demoSession [LlmAttempt.success demoLowConfJson]).status
          = some "low_confidence")
    ∧ ((3 : ℚ) / 10 ≤ jsOrHalf demoBoundaryJson.confidence
      ∧ (processResult demoSession [LlmAttempt.success demoBoundaryJson]).status
          = some "processed") := by
  have h1 : ("Request timed out" : String) ≠ "" := by decide
  have h2 : jsOrHalf demoLowConfJson.confidence < (3 : ℚ) / 10 := by
    norm_num [jsOrHalf, demoLowConfJson]
  have h3 : (3 : ℚ) / 10 ≤ jsOrHalf demoBoundaryJson.confidence := by
    norm_num [jsOrHalf, demoBoundaryJson]
  exact ⟨⟨h1, processResult_status_classification.1 demoSession _ _ _ h1⟩,
    ⟨h2, processResult_status_classification.2.1 demoSession demoLowConfJson [] h2⟩,
    ⟨h3, processResult_status_classification.2.2 demoSession demoBoundaryJson [] h3⟩⟩

/-- C9: when an attempt succeeds but the returned confidence is missing or
zero, extractContactInfo substitutes the default 0.5, so the classifier
sees 0.5 and labels the result processed, never low_confidence. -/
theorem success_confidence_defaulted :
    ∀ (session : SessionData) (d : ExtractedJson) (rest : List LlmAttempt),
      d.confidence = none ∨ d.confidence = some 0 →
      (processResult session (LlmAttempt.success d :: rest)).extracted.confidence
          = (1 : ℚ) / 2
      ∧ (processResult session (LlmAttempt.success d :: rest)).status
          = some "processed" := by
  intro session d rest h
  have hconf : jsOrHalf d.confidence = (1 : ℚ) / 2 := by
    rcases h with h | h <;> simp [jsOrHalf, h]
  constructor
  · simp [processResult, extract_firstSuccess, successResult, hconf]
  · have hnl : ¬ jsOrHalf d.confidence < (3 : ℚ) / 10 := by rw [hconf]; norm_num
    simp [processResult, extract_firstSuccess, classifyStatus, successResult, truthy, hnl]

/-- C9 witness: a successful payload carrying confidence 0 comes out with
confidence 0.5 and status processed. -/
theorem success_confidence_defaulted_witness :
    (demoZeroConfJson.confidence = none ∨ demoZeroConfJson.confidence = some 0)
    ∧ (processResult demoSession [LlmAttempt.success demoZeroConfJson]).extracted.confidence
        = (1 : ℚ) / 2
    ∧ (processResult demoSession [LlmAttempt.success demoZeroConfJson]).status
        = some "processed" := by
  have h : demoZeroConfJson.confidence = none ∨ demoZeroConfJson.confidence = some 0 :=
    Or.inr rfl
  exact ⟨h, success_confidence_defaulted demoSession demoZeroConfJson [] h⟩

/-- C1 (counterexample): for the spec's worked example session, with the
extraction failing on all three attempts, the processing stage routes
nothing to the dead-letter sink and returns the failed record normally
to its caller — while the claim demands a dead-letter entry and a
propagated failure.  (The persisted record itself is classified failed,
so the scenario is exactly the claim's trigger.) -/
theorem process_exhausted_no_deadletter :
    demoSession.combinedText = "Rahul Sharma\n9876543210"
    ∧ (processResult demoSession demoFailAttempts).status = some "failed"
    ∧ (process demoSession demoFailAttempts).deadLetter = []
    ∧ isOkResult (process demoSession demoFailAttempts).result = true := by
  refine ⟨rfl, ?_, rfl, rfl⟩
  simp [processResult, extract_allFailed, classifyStatus, failedResult, truthy,
    demoSession, demoFailAttempts]

/-- C1 (amended): when the extraction call fails on all 3 attempts (the
last error carrying a non-empty message), process produces and persists a
ProcessingResult with status failed, all extracted fields null, confidence
0 and notes carrying the last error message, and publishes that same
record to the parsed-messages success topic; it routes nothing to the
dead-letter sink and propagates no failure — the failed record is
returned normally to the queue consumption loop.  (Dead-letter routing
and failure propagation belong to the catch path of process, which an
exhausted extraction never reaches because extractContactInfo returns its
failure record instead of throwing.) -/
theorem process_exhausted_retries :
    ∀ (session : SessionData) (e1 e2 e3 : String), e3 ≠ "" →
      (processResult session
          [LlmAttempt.failure e1, LlmAttempt.failure e2, LlmAttempt.failure e3]).status
        = some "failed"
      ∧ (processResult session
          [LlmAttempt.failure e1, LlmAttempt.failure e2, LlmAttempt.failure e3]).extracted
        = { name := none, address := none, mobile := none, confidence := 0,
            notes := some ("Extraction failed: " ++ e3) }
      ∧ (process session
          [LlmAttempt.failure e1, LlmAttempt.failure e2, LlmAttempt.failure e3]).saved
        = [processResult session
            [LlmAttempt.failure e1, LlmAttempt.failure e2, LlmAttempt.failure e3]]
      ∧ (process session
          [LlmAttempt.failure e1, LlmAttempt.failure e2, LlmAttempt.failure e3]).parsedTopic
        = [processResult session
            [LlmAttempt.failure e1, LlmAttempt.failure e2, LlmAttempt.failure e3]]
      ∧ (process session
          [LlmAttempt.failure e1, LlmAttempt.failure e2, LlmAttempt.failure e3]).deadLetter
        = []
      ∧ (process session
          [LlmAttempt.failure e1, LlmAttempt.failure e2, LlmAttempt.failure e3]).result
        = Except.ok (processResult session
            [LlmAttempt.failure e1, LlmAttempt.failure e2, LlmAttempt.failure e3]) := by
  intro session e1 e2 e3 h3
  refine ⟨?_, ?_, rfl, rfl, rfl, rfl⟩
  · simp [processResult, extract_allFailed, classifyStatus, failedResult, truthy, h3]
  · simp [processResult, extract_allFailed, failedResult]

/-- C1 witness: the amended behaviour at the spec's worked example. -/
theorem process_exhausted_retries_witness :
    (("Request timed out" : String) ≠ ""
      ∧ (processResult demoSession demoFailAttempts).status = some "failed"
      ∧ (processResult demoSession demoFailAttempts).extracted
        = { name := none, address := none, mobile := none, confidence := 0,
            notes := some ("Extraction failed: " ++ "Request timed out") }
      ∧ (process demoSession demoFailAttempts).saved
        = [processResult demoSession demoFailAttempts]
      ∧ (process demoSession demoFailAttempts).parsedTopic
        = [processResult demoSession demoFailAttempts]
      ∧ (process demoSession demoFailAttempts).deadLetter = []
      ∧ (process demoSession demoFailAttempts).result
        = Except.ok (processResult demoSession demoFailAttempts)) := by
  have h : ("Request timed out" : String) ≠ "" := by decide
  exact ⟨h, process_exhausted_retries demoSession
    "Request timed out" "Request timed out" "Request timed out" h⟩

/-- C6 (counterexample): the code trims the text before the 15-character
test, the claim measures the raw text.  On "hi" followed by thirteen
spaces (raw length 15) isNoise returns true, though the claim, whose
conditions both fail on this input, predicts false. -/
theorem isNoise_trim_counterexample :
    isNoise "hi             " = true
    ∧ claimIsNoise "hi             " = false := by
  exact ⟨by decide, by decide⟩

/-- C6 (amended): isNoise(text) returns true exactly when the text is
shorter than 2 characters, or when the trimmed lowercased text is shorter
than 15 characters and matches at least one of the fixed greeting/filler
patterns; it returns false for all other inputs. -/
theorem isNoise_spec :
    ∀ text, isNoise text = amendedIsNoise text := by
  intro text
  unfold isNoise amendedIsNoise
  by_cases h2 : text.length < 2
  · simp [h2]
  · by_cases h15 : ((trimChars text.toList).map Char.toLower).length < 15 <;>
      simp [h2, h15]

theorem processSession_pmi (s : CorrState) (k : String) (now : Nat) :
    (processSession s k now).1.processedMessageIds = s.processedMessageIds := by
  unfold processSession
  split
  · rfl
  · split
    · rfl
    · split <;> rfl

theorem addMessageBody_pmi (s : CorrState) (m : Message) (now : Nat) :
    (addMessageBody s m now).1.processedMessageIds = s.processedMessageIds := by
  unfold addMessageBody
  by_cases hn : isNoise m.text
  · simp [hn]
  · simp only [hn, Bool.false_eq_true, if_false]
    cases halg : alGet s.sessions m.senderId with
    | none =>
      simp only [halg]
      split <;> split <;> simp_all [processSession_pmi]
    | some sess =>
      simp only [halg]
      split <;> split <;> simp_all [processSession_pmi]

theorem mem_pruneIds_append (l : List String) (x : String) :
    x ∈ pruneIds (l ++ [x]) := by
  unfold pruneIds
  split
  · next h =>
    have hlen : 5000 ≤ l.length := by
      simp only [List.length_append, List.length_singleton] at h
      omega
    rw [List.drop_append_of_le_length hlen]
    exact List.mem_append_right _ (List.mem_singleton_self x)
  · exact List.mem_append_right _ (List.mem_singleton_self x)

/-- After any addMessage call for m, the id of m sits in the seen-message
cache of the resulting state. -/
theorem addMessage_id_recorded (s : CorrState) (m : Message) (now : Nat) :
    (addMessage s m now).1.processedMessageIds.contains m.id = true := by
  unfold addMessage
  by_cases hc : s.processedMessageIds.contains m.id = true
  · simp only [hc, if_true]
  · simp only [Bool.not_eq_true] at hc
    simp only [hc, Bool.false_eq_true, if_false]
    rw [addMessageBody_pmi]
    exact List.elem_eq_true_of_mem (mem_pruneIds_append _ _)

/-- A message whose id is already in the seen-message cache is dropped:
the call returns the state unchanged and emits nothing. -/
theorem addMessage_seen_noop (s : CorrState) (m : Message) (now : Nat)
    (h : s.processedMessageIds.contains m.id = true) :
    addMessage s m now = (s, []) := by
  unfold addMessage
  simp only [h, if_true]

/-- C5: for all messages m1, m2 with equal id submitted to addMessage in
that order, the second call is a complete no-op: the state is returned
unchanged (no session is mutated) and nothing is emitted, so only the
first message is ever incorporated into any session. -/
theorem addMessage_dedup :
    ∀ (s : CorrState) (m1 m2 : Message) (now1 now2 : Nat), m2.id = m1.id →
      addMessage (addMessage s m1 now1).1 m2 now2 = ((addMessage s m1 now1).1, []) := by
  intro s m1 m2 now1 now2 hid
  apply addMessage_seen_noop
  rw [hid]
  exact addMessage_id_recorded s m1 now1

/-- C5 witness: a replayed message id (with different text) is a no-op on
the state reached from the initial one. -/
theorem addMessage_dedup_witness :
    demoReplayMsg.id = demoNameMsg.id
    ∧ addMessage (addMessage initialState demoNameMsg 1000).1 demoReplayMsg 2000
        = ((addMessage initialState demoNameMsg 1000).1, []) :=
  ⟨rfl, addMessage_dedup initialState demoNameMsg demoReplayMsg 1000 2000 rfl⟩

/-- A fresh noise message only records its id: sessions are untouched and
nothing is emitted. -/
theorem addMessage_noise (s : CorrState) (m : Message) (now : Nat)
    (hn : isNoise m.text = true)
    (hc : s.processedMessageIds.contains m.id = false) :
    addMessage s m now =
      ({ s with processedMessageIds := pruneIds (s.processedMessageIds ++ [m.id]) },
       []) := by
  unfold addMessage
  simp only [hc, Bool.false_eq_true, if_false]
  unfold addMessageBody
  simp [hn]

/-- C10: addMessage records the message id in the seen-message cache
before the noise check — a message rejected as noise mutates no session
and emits nothing, yet its id is cached, and any later message reusing
that id, even one whose text is not noise, is dropped as a duplicate
no-op. -/
theorem noise_then_replay_dropped :
    ∀ (s : CorrState) (m1 m2 : Message) (now1 now2 : Nat),
      isNoise m1.text = true → m2.id = m1.id → isNoise m2.text = false →
      (addMessage s m1 now1).1.sessions = s.sessions
      ∧ (addMessage s m1 now1).2 = []
      ∧ (addMessage s m1 now1).1.processedMessageIds.contains m1.id = true
      ∧ addMessage (addMessage s m1 now1).1 m2 now2
          = ((addMessage s m1 now1).1, []) := by
  intro s m1 m2 now1 now2 hn1 hid _hn2
  have hnoop : addMessage (addMessage s m1 now1).1 m2 now2
      = ((addMessage s m1 now1).1, []) := by
    apply addMessage_seen_noop
    rw [hid]
    exact addMessage_id_recorded s m1 now1
  by_cases hc : s.processedMessageIds.contains m1.id = true
  · rw [addMessage_seen_noop s m1 now1 hc] at hnoop ⊢
    exact ⟨rfl, rfl, hc, hnoop⟩
  · simp only [Bool.not_eq_true] at hc
    refine ⟨?_, ?_, addMessage_id_recorded s m1 now1, hnoop⟩ <;>
      rw [addMessage_noise s m1 now1 hn1 hc]

/-- C10 witness: the greeting "namaste ji" is rejected as noise but its
id is cached, and a later well-formed message reusing that id is
dropped. -/
theorem noise_then_replay_dropped_witness :
    (isNoise demoNoiseMsg.text = true
      ∧ demoNoiseReplayMsg.id = demoNoiseMsg.id
      ∧ isNoise demoNoiseReplayMsg.text = false)
    ∧ (addMessage initialState demoNoiseMsg 500).1.sessions = initialState.sessions
    ∧ (addMessage initialState demoNoiseMsg 500).2 = []
    ∧ (addMessage initialState demoNoiseMsg 500).1.processedMessageIds.contains
        demoNoiseMsg.id = true
    ∧ addMessage (addMessage initialState demoNoiseMsg 500).1 demoNoiseReplayMsg 1500
        = ((addMessage initialState demoNoiseMsg 500).1, []) := by
  have h1 : isNoise demoNoiseMsg.text = true := by decide
  have h3 : isNoise demoNoiseReplayMsg.text = false := by decide
  exact ⟨⟨h1, rfl, h3⟩,
    noise_then_replay_dropped initialState demoNoiseMsg demoNoiseReplayMsg 500 1500
      h1 rfl h3⟩

theorem alGet_alSet_self {α : Type} (l : List (String × α)) (k : String) (v : α) :
    alGet (alSet l k v) k = some v := by
  induction l with
  | nil => simp [alGet, alSet]
  | cons p rest ih =>
    by_cases hp : p.1 == k
    · simp [alGet, alSet, hp]
    · simp only [alSet, hp, Bool.false_eq_true, if_false]
      simp [alGet, hp, ih]

theorem contains_eq_false_iff (l : List String) (x : String) :
    l.contains x = false ↔ x ∉ l := by
  constructor
  · intro h hm
    have he : l.elem x = true := List.elem_eq_true_of_mem hm
    unfold List.contains at h
    rw [he] at h
    exact Bool.noConfusion h
  · intro h
    cases hcl : l.contains x with
    | false => rfl
    | true =>
      unfold List.contains at hcl
      exact absurd (List.mem_of_elem_eq_true hcl) h

theorem mem_of_mem_prunePS (l : List String) (x : String) (h : x ∈ prunePS l) :
    x ∈ l := by
  unfold prunePS at h
  split at h
  · exact List.drop_subset _ _ h
  · exact h

/-- A text that passed the noise filter is non-empty. -/
theorem text_ne_empty_of_not_noise (t : String) (h : isNoise t = false) : t ≠ "" := by
  intro he
  subst he
  simp [isNoise] at h

/-- On slot records obeying the truthiness invariant, the adaptive timeout
of the code (JS truthiness plus a non-null count) agrees with the claim's
reading of "filled" as non-null. -/
theorem adaptive_eq_claim (sl : Slots) (d : Nat) (h : slotsTruthy sl) :
    adaptiveTimeoutMs sl d =
      (if sl.name.isSome && sl.mobile.isSome then 10000
       else if sl.name.isSome || sl.mobile.isSome || sl.address.isSome then 30000
       else d) := by
  obtain ⟨h1, h2, h3⟩ := h
  unfold adaptiveTimeoutMs
  cases hn : sl.name with
  | none =>
    cases hm : sl.mobile with
    | none =>
      cases ha : sl.address with
      | none => simp [truthy, List.countP_cons, List.countP_nil]
      | some a => simp [truthy, List.countP_cons, List.countP_nil]
    | some b =>
      cases ha : sl.address with
      | none => simp [truthy, List.countP_cons, List.countP_nil]
      | some a => simp [truthy, List.countP_cons, List.countP_nil]
  | some v =>
    have hv : (v != "") = true := by
      rw [hn] at h1
      simpa using fun he => h1 (by rw [he])
    cases hm : sl.mobile with
    | none => simp [truthy, hv, List.countP_cons, List.countP_nil]
    | some w =>
      have hw : (w != "") = true := by
        rw [hm] at h2
        simpa using fun he => h2 (by rw [he])
      simp [truthy, hv, hw, List.countP_cons, List.countP_nil]

/-- Slot truthiness is preserved by storing a non-empty text. -/
theorem slotsTruthy_slotSet (sl : Slots) (slot : Slot) (t : String)
    (h : slotsTruthy sl) (ht : t ≠ "") : slotsTruthy (slotSet sl slot t) := by
  obtain ⟨h1, h2, h3⟩ := h
  cases slot <;>
    exact ⟨by simp_all [slotSet], by simp_all [slotSet], by simp_all [slotSet]⟩

/-- processSession on an unprocessed, non-empty session: the finalized
record is emitted, the session id is cached, and the timer and session
are removed. -/
theorem processSession_emits (s : CorrState) (k : String) (now : Nat) (sess : Session)
    (h : alGet s.sessions k = some sess) (hne : sess.messages ≠ [])
    (hnp : s.processedSessions.contains (sessionIdOf k sess.startedAt) = false) :
    processSession s k now =
      ({ s with
          processedSessions :=
            prunePS (s.processedSessions ++ [sessionIdOf k sess.startedAt])
          timers := alDelete s.timers k
          sessions := alDelete s.sessions k },
       [mkSessionData k sess now]) := by
  unfold processSession
  rw [h]
  have hie : sess.messages.isEmpty = false := by
    cases hmm : sess.messages with
    | nil => exact absurd hmm hne
    | cons a l => rfl
  simp [hie, (contains_eq_false_iff _ _).mp hnp]

/-- slotsTruthy of the all-null fresh slot record. -/
theorem slotsTruthy_fresh : slotsTruthy { name := none, mobile := none, address := none } :=
  ⟨by simp, by simp, by simp⟩

theorem processSession_maxMessages (s : CorrState) (k : String) (now : Nat) :
    (processSession s k now).1.maxMessages = s.maxMessages := by
  unfold processSession
  split
  · rfl
  · split
    · rfl
    · split <;> rfl

theorem addMessageBody_timer (s : CorrState) (m : Message) (now : Nat)
    (hnz : isNoise m.text = false)
    (hsl : ∀ sess, alGet s.sessions m.senderId = some sess →
        slotsTruthy sess.slots ∧ sess.messages.length + 1 < s.maxMessages)
    (hmax1 : 1 < s.maxMessages) :
    ∃ sess1,
      alGet (addMessageBody s m now).1.sessions m.senderId = some sess1
      ∧ slotsTruthy sess1.slots
      ∧ alGet (addMessageBody s m now).1.timers m.senderId
          = some (adaptiveTimeoutMs sess1.slots s.timeoutMs) := by
  have htxt := text_ne_empty_of_not_noise m.text hnz
  have hslots1 : ∀ sl, slotsTruthy sl →
      slotsTruthy (if identifySlot m.text = Slot.unknown then sl
        else slotSet sl (identifySlot m.text) m.text) := by
    intro sl hsltr
    by_cases hu : identifySlot m.text = Slot.unknown
    · simpa [hu] using hsltr
    · simpa [hu] using slotsTruthy_slotSet sl (identifySlot m.text) m.text hsltr htxt
  have hfresh : ¬ s.maxMessages ≤
      ((freshSession m now).messages ++
        [({ id := m.id, text := m.text, timestamp := m.timestamp,
            receivedAt := now } : BufferedMessage)]).length := by
    simp [freshSession]
    omega
  unfold addMessageBody
  simp only [hnz, Bool.false_eq_true, if_false]
  cases halg : alGet s.sessions m.senderId with
  | none =>
    simp only [halg, Bool.false_eq_true, if_false, ge_iff_le]
    rw [if_neg hfresh]
    refine ⟨_, alGet_alSet_self _ _ _, ?_, alGet_alSet_self _ _ _⟩
    exact hslots1 _ slotsTruthy_fresh
  | some sess =>
    obtain ⟨htr, hlen⟩ := hsl sess halg
    simp only [halg]
    by_cases hcol :
        (decide (identifySlot m.text ≠ Slot.unknown)
          && truthy (slotGet sess.slots (identifySlot m.text))) = true
    · simp only [hcol, if_true, ge_iff_le, processSession_maxMessages]
      rw [if_neg hfresh]
      refine ⟨_, alGet_alSet_self _ _ _, ?_, alGet_alSet_self _ _ _⟩
      exact hslots1 _ slotsTruthy_fresh
    · have hlim : ¬ s.maxMessages ≤
          (sess.messages ++
            [({ id := m.id, text := m.text, timestamp := m.timestamp,
                receivedAt := now } : BufferedMessage)]).length := by
        simp
        omega
      simp only [Bool.not_eq_true] at hcol
      simp only [hcol, Bool.false_eq_true, if_false, ge_iff_le]
      rw [if_neg hlim]
      refine ⟨_, alGet_alSet_self _ _ _, ?_, alGet_alSet_self _ _ _⟩
      exact hslots1 _ htr

/-- C3: after every addMessage call that reaches the timer step (the
message is neither a duplicate nor noise; the message-count finalize is
not tripped), the sender has a stored session and exactly one armed
timer, set to the adaptive duration: 10000 ms when both the name and
mobile slots are filled, 30000 ms when at least one slot is filled, and
the configured default timeout otherwise.  Stated over states whose slot
values obey the truthiness invariant of every reachable state. -/
theorem addMessage_timer_adaptive :
    ∀ (s : CorrState) (m : Message) (now : Nat),
      s.processedMessageIds.contains m.id = false →
      isNoise m.text = false →
      (∀ sess, alGet s.sessions m.senderId = some sess →
        slotsTruthy sess.slots ∧ sess.messages.length + 1 < s.maxMessages) →
      1 < s.maxMessages →
      ∃ sess1,
        alGet (addMessage s m now).1.sessions m.senderId = some sess1
        ∧ alGet (addMessage s m now).1.timers m.senderId
            = some (if sess1.slots.name.isSome && sess1.slots.mobile.isSome then 10000
                    else if sess1.slots.name.isSome || sess1.slots.mobile.isSome
                          || sess1.slots.address.isSome then 30000
                    else s.timeoutMs) := by
  intro s m now hdup hnz hsl hmax1
  unfold addMessage
  simp only [hdup, Bool.false_eq_true, if_false]
  obtain ⟨sess1, hget, htr, htimer⟩ :=
    addMessageBody_timer
      { s with processedMessageIds := pruneIds (s.processedMessageIds ++ [m.id]) }
      m now hnz hsl hmax1
  exact ⟨sess1, hget, by rw [htimer, adaptive_eq_claim _ _ htr]⟩

/-- C3 witness: a name message joining the mobile-only session; the
hypotheses hold and the timer exists with the adaptive value. -/
theorem addMessage_timer_adaptive_witness :
    (demoStateWithMobile.processedMessageIds.contains demoNameMsg.id = false
      ∧ isNoise demoNameMsg.text = false
      ∧ 1 < demoStateWithMobile.maxMessages)
    ∧ ∃ sess1,
        alGet (addMessage demoStateWithMobile demoNameMsg 1700000001000).1.sessions
            demoNameMsg.senderId = some sess1
        ∧ alGet (addMessage demoStateWithMobile demoNameMsg 1700000001000).1.timers
            demoNameMsg.senderId
            = some (if sess1.slots.name.isSome && sess1.slots.mobile.isSome then 10000
                    else if sess1.slots.name.isSome || sess1.slots.mobile.isSome
                          || sess1.slots.address.isSome then 30000
                    else demoStateWithMobile.timeoutMs) := by
  refine ⟨⟨by decide, by decide, by decide⟩,
    addMessage_timer_adaptive demoStateWithMobile demoNameMsg 1700000001000
      (by decide) (by decide) ?_ (by decide)⟩
  intro sess h
  simp only [demoStateWithMobile, alGet] at h
  rw [if_pos (by decide)] at h
  cases h
  exact ⟨⟨by decide, by decide, by decide⟩, by decide⟩

/-- C2: when a session exists for the sender, the incoming message's
classified slot is not unknown, and that slot is already JS-truthily
filled, addMessage finalizes the existing session first — its Finalized
Session Record is the sole emission, provided the session is non-empty
and not already in the finalized cache — and then creates a fresh session
holding only the new message (never joining it to the old session). -/
theorem addMessage_slot_collision :
    ∀ (s : CorrState) (m : Message) (now : Nat) (sess : Session),
      s.processedMessageIds.contains m.id = false →
      isNoise m.text = false →
      alGet s.sessions m.senderId = some sess →
      identifySlot m.text ≠ Slot.unknown →
      truthy (slotGet sess.slots (identifySlot m.text)) = true →
      sess.messages ≠ [] →
      s.processedSessions.contains (sessionIdOf m.senderId sess.startedAt) = false →
      1 < s.maxMessages →
      (addMessage s m now).2 = [mkSessionData m.senderId sess now]
      ∧ ∃ sess1,
          alGet (addMessage s m now).1.sessions m.senderId = some sess1
          ∧ sess1.messages =
              [{ id := m.id, text := m.text, timestamp := m.timestamp, receivedAt := now }]
          ∧ sess1.startedAt = now := by
  intro s m now sess hdup hnz hget hslot hfill hne hnp hmax1
  have hfresh : ¬ s.maxMessages ≤
      ((freshSession m now).messages ++
        [({ id := m.id, text := m.text, timestamp := m.timestamp,
            receivedAt := now } : BufferedMessage)]).length := by
    simp [freshSession]
    omega
  have hcol : (decide (identifySlot m.text ≠ Slot.unknown)
      && truthy (slotGet sess.slots (identifySlot m.text))) = true := by
    simp [hslot, hfill]
  unfold addMessage
  simp only [hdup, Bool.false_eq_true, if_false]
  unfold addMessageBody
  simp only [hnz, Bool.false_eq_true, if_false, hget, hcol, if_true]
  rw [processSession_emits
    { s with processedMessageIds := pruneIds (s.processedMessageIds ++ [m.id]) }
    m.senderId now sess hget hne hnp]
  simp only [ge_iff_le]
  rw [if_neg hfresh]
  refine ⟨rfl, _, alGet_alSet_self _ _ _, ?_, rfl⟩
  simp [freshSession]

/-- C2 witness: a second mobile-shaped message while the mobile slot is
filled; the old session's record is the sole emission and the new session
holds only the new message. -/
theorem addMessage_slot_collision_witness :
    (demoStateWithMobile.processedMessageIds.contains demoSecondMobileMsg.id = false
      ∧ isNoise demoSecondMobileMsg.text = false
      ∧ alGet demoStateWithMobile.sessions demoSecondMobileMsg.senderId
          = some demoMobileSession
      ∧ identifySlot demoSecondMobileMsg.text ≠ Slot.unknown
      ∧ truthy (slotGet demoMobileSession.slots
          (identifySlot demoSecondMobileMsg.text)) = true
      ∧ demoMobileSession.messages ≠ []
      ∧ demoStateWithMobile.processedSessions.contains
          (sessionIdOf demoSecondMobileMsg.senderId demoMobileSession.startedAt) = false
      ∧ 1 < demoStateWithMobile.maxMessages)
    ∧ (addMessage demoStateWithMobile demoSecondMobileMsg 1700000002000).2
        = [mkSessionData demoSecondMobileMsg.senderId demoMobileSession 1700000002000]
    ∧ ∃ sess1,
        alGet (addMessage demoStateWithMobile demoSecondMobileMsg 1700000002000).1.sessions
            demoSecondMobileMsg.senderId = some sess1
        ∧ sess1.messages =
            [{ id := demoSecondMobileMsg.id, text := demoSecondMobileMsg.text,
               timestamp := demoSecondMobileMsg.timestamp, receivedAt := 1700000002000 }]
        ∧ sess1.startedAt = 1700000002000 := by
  obtain ⟨hemit, hex⟩ :=
    addMessage_slot_collision demoStateWithMobile demoSecondMobileMsg 1700000002000
      demoMobileSession (by decide) (by decide) (by decide) (by decide) (by decide)
      (by decide) (by decide) (by decide)
  exact ⟨⟨by decide, by decide, by decide, by decide, by decide, by decide,
    by decide, by decide⟩, hemit, hex⟩

theorem alDelete_not_mem {α : Type} (l : List (String × α)) (k : String)
    (h : k ∉ l.map (fun p => p.1)) : alDelete l k = l := by
  induction l with
  | nil => rfl
  | cons p rest ih =>
    simp only [List.map_cons, List.mem_cons] at h
    push_neg at h
    obtain ⟨h1, h2⟩ := h
    have hb : (p.1 == k) = false := by
      simp [Ne.symm h1]
    simp [alDelete, hb, ih h2]

theorem flushAllGo_drains :
    ∀ (sl : List (String × Session)) (s : CorrState) (now : Nat),
      s.sessions = sl →
      (sl.map (fun p => p.1)).Nodup →
      (sl.map (fun p => sessionIdOf p.1 p.2.startedAt)).Nodup →
      (∀ p ∈ sl, p.2.messages ≠ []) →
      (∀ p ∈ sl, sessionIdOf p.1 p.2.startedAt ∉ s.processedSessions) →
      (flushAllGo s (sl.map (fun p => p.1)) now).2.length = sl.length
      ∧ (flushAllGo s (sl.map (fun p => p.1)) now).1.sessions = [] := by
  intro sl
  induction sl with
  | nil =>
    intro s now hs _ _ _ _
    simp [flushAllGo, hs]
  | cons p rest ih =>
    intro s now hs hk hsid hne hnp
    obtain ⟨k, sess⟩ := p
    have hknotin : k ∉ rest.map (fun q => q.1) := by
      simpa using (List.nodup_cons.mp hk).1
    have hsidnotin :
        sessionIdOf k sess.startedAt ∉
          rest.map (fun q => sessionIdOf q.1 q.2.startedAt) := by
      simpa using (List.nodup_cons.mp hsid).1
    have hget : alGet s.sessions k = some sess := by
      rw [hs]; simp [alGet]
    have hnek : sess.messages ≠ [] := hne (k, sess) (by simp)
    have hnpk : s.processedSessions.contains (sessionIdOf k sess.startedAt) = false := by
      rw [contains_eq_false_iff]
      exact hnp (k, sess) (by simp)
    have hdel : alDelete s.sessions k = rest := by
      rw [hs]
      simp only [alDelete, beq_self_eq_true, if_true]
      exact alDelete_not_mem rest k hknotin
    simp only [List.map_cons, flushAllGo]
    rw [processSession_emits s k now sess hget hnek hnpk]
    have hrec := ih
      { s with
          processedSessions :=
            prunePS (s.processedSessions ++ [sessionIdOf k sess.startedAt])
          timers := alDelete s.timers k
          sessions := alDelete s.sessions k }
      now hdel (List.nodup_cons.mp hk).2 (List.nodup_cons.mp hsid).2
      (fun q hq => hne q (List.mem_cons_of_mem _ hq))
      (by
        intro q hq hmem
        have hmem2 := mem_of_mem_prunePS _ _ hmem
        rcases List.mem_append.mp hmem2 with hin | hin
        · exact hnp q (List.mem_cons_of_mem _ hq) hin
        · have heq : sessionIdOf q.1 q.2.startedAt = sessionIdOf k sess.startedAt := by
            simpa using hin
          exact hsidnotin (heq ▸ List.mem_map_of_mem _ hq))
    refine ⟨?_, hrec.2⟩
    simp [hrec.1]

/-- C8: flushing with N active sessions emits exactly N Finalized Session
Records — one per active session — and leaves zero active sessions.
Stated under the invariants of any reachable store: sender keys are
distinct (it is a map), every stored session holds at least one message,
and the sessions' public ids are distinct and not already in the
finalized-session cache. -/
theorem flushAll_drains :
    ∀ (s : CorrState) (now : Nat),
      (s.sessions.map (fun p => p.1)).Nodup →
      (s.sessions.map (fun p => sessionIdOf p.1 p.2.startedAt)).Nodup →
      (∀ p ∈ s.sessions, p.2.messages ≠ []) →
      (∀ p ∈ s.sessions, sessionIdOf p.1 p.2.startedAt ∉ s.processedSessions) →
      (flushAll s now).2.length = s.sessions.length
      ∧ (flushAll s now).1.sessions = [] := by
  intro s now hk hsid hne hnp
  exact flushAllGo_drains s.sessions s now rfl hk hsid hne hnp

/-- C8 witness: flushing the two-session state emits two records and
empties the store. -/
theorem flushAll_drains_witness :
    ((demoTwoSessionState.sessions.map (fun p => p.1)).Nodup
      ∧ (demoTwoSessionState.sessions.map
          (fun p => sessionIdOf p.1 p.2.startedAt)).Nodup
      ∧ (∀ p ∈ demoTwoSessionState.sessions, p.2.messages ≠ [])
      ∧ (∀ p ∈ demoTwoSessionState.sessions,
          sessionIdOf p.1 p.2.startedAt ∉ demoTwoSessionState.processedSessions))
    ∧ (flushAll demoTwoSessionState 1700000005000).2.length
        = demoTwoSessionState.sessions.length
    ∧ (flushAll demoTwoSessionState 1700000005000).1.sessions = [] := by
  refine ⟨⟨by decide, by decide, by decide, by decide⟩, ?_⟩
  exact flushAll_drains demoTwoSessionState 1700000005000
    (by decide) (by decide) (by decide) (by decide)
